import Mathlib

/-!
Verification development for the QuestScholar paper-aggregation core
(`my_tools.py`): the paper store, the critic ledger, the deduplication
passes, the report-composition pipeline and the text normalizer.

Conventions of the embedding:
* Python dicts holding paper records become the `Paper` structure with all
  fields present (every search collaborator populates every key).
* Python floats carrying scores become `ℚ`; decimal literals such as `0.4`
  denote the exact rationals the source writes.
* The module-level globals `COLLECTED_PAPERS` / `CRITIC_EVALUATIONS` become
  explicit state threaded through the functions (`SysState`).
* `CRITIC_EVALUATIONS` (a Python dict used only via key lookup/assignment)
  becomes an insertion-ordered association list with overwriting `setEval`.
* Fallible operations return their result string instead of raising, exactly
  as the source catches exceptions and returns messages.
-/

namespace QuestScholar

/-- Python `str.lower()` (restricted to ASCII case mapping). -/
def pyLower (s : String) : String := String.mk (s.data.map Char.toLower)

/-- Python `str.strip()`: drop leading and trailing whitespace. -/
def pyStrip (s : String) : String :=
  String.mk (((s.data.dropWhile Char.isWhitespace).reverse.dropWhile
    Char.isWhitespace).reverse)

/-- One paper record, as built by the search tools in `my_tools.py`
(`paper_data = {...}` dicts appended to `COLLECTED_PAPERS`).  The three
`critic_*` fields are absent (`none`) until `generate_report` /
`generate_html_report` attaches them, mirroring the keys the join loop
assigns onto the stored dicts. -/
structure EvalRecord where
  relevance_score : ℚ
  methodological_soundness : ℚ
  impact_score : ℚ
  redundancy_flag : Bool
  flags : List String
  recommended_action : String
  rationale : String
  overall_score : ℚ
deriving DecidableEq, Repr

structure Paper where
  title : String
  authors : List String
  pub_year : Int
  abstract : String
  url : String
  source : String
  citation_count : Int
  venue : String
  paper_id : String
  critic_rank : Option ℚ := none
  critic_action : Option String := none
  critic_evaluation : Option EvalRecord := none
deriving DecidableEq, Repr

/-- `CRITIC_EVALUATIONS`: a dict from normalized title to evaluation record,
embedded as an insertion-ordered association list. -/
abbrev Ledger := List (String × EvalRecord)

/-- Dict lookup `CRITIC_EVALUATIONS[key]` / `key in CRITIC_EVALUATIONS`. -/
def lookupEval (led : Ledger) (k : String) : Option EvalRecord :=
  match led with
  | [] => none
  | (k2, v) :: rest => if k2 = k then some v else lookupEval rest k

/-- Dict assignment `CRITIC_EVALUATIONS[key] = value`: overwrite in place if
the key exists, append otherwise (Python dicts preserve insertion order). -/
def setEval (led : Ledger) (k : String) (v : EvalRecord) : Ledger :=
  match led with
  | [] => [(k, v)]
  | (k2, v2) :: rest =>
    if k2 = k then (k2, v) :: rest else (k2, v2) :: setEval rest k v

/-- One raw entry of the JSON evaluation payload handed to
`CriticTool.evaluate_papers`: a JSON object whose keys are all optional
(the source reads every key with `eval_item.get(..., default)`).  The
`overall_score` key may be supplied by the caller but is never read by the
source. -/
structure RawEval where
  paper_title : Option String := none
  relevance_score : Option ℚ := none
  methodological_soundness : Option ℚ := none
  impact_score : Option ℚ := none
  redundancy_flag : Option Bool := none
  flags : Option (List String) := none
  recommended_action : Option String := none
  rationale : Option String := none
  overall_score : Option ℚ := none
deriving DecidableEq, Repr

/-- The normalized ledger key: `eval_item.get('paper_title', '').lower().strip()`. -/
def rawEvalKey (e : RawEval) : String :=
  pyStrip (pyLower (e.paper_title.getD ""))

/-- The record stored by `evaluate_papers` for one payload entry: each
sub-score defaults to `3.0`, and `overall_score` is recomputed as
`relevance*0.4 + methodology*0.3 + impact*0.3` (the raw entry's own
`overall_score` key is never consulted). -/
def mkEval (e : RawEval) : EvalRecord :=
  { relevance_score := e.relevance_score.getD 3
    methodological_soundness := e.methodological_soundness.getD 3
    impact_score := e.impact_score.getD 3
    redundancy_flag := e.redundancy_flag.getD false
    flags := e.flags.getD []
    recommended_action := e.recommended_action.getD "include"
    rationale := e.rationale.getD ""
    overall_score :=
      e.relevance_score.getD 3 * 0.4 +
      e.methodological_soundness.getD 3 * 0.3 +
      e.impact_score.getD 3 * 0.3 }

/-- One element of the parsed JSON payload list.  `record` is a JSON object
(whose fields, if present, have the expected types); `malformed` is any
element whose processing raises in Python (a non-object such as a bare
number or string, or an object with a wrongly-typed field), which the
source catches at function level via `except Exception`. -/
inductive PayloadItem
  | record (fields : RawEval)
  | malformed
deriving DecidableEq, Repr

/-- The message texts returned by `evaluate_papers`.  The source interpolates
the Python exception text into its error messages; the embedding fixes one
representative text per error class. -/
def successMsg (count : Nat) : String :=
  "Critic: Successfully evaluated " ++ toString count ++
    " papers. Evaluations stored for aggregation."

def jsonErrorMsg : String :=
  "Critic Error: Invalid JSON format - payload is not valid JSON"

def entryErrorMsg : String :=
  "Critic Error: entry is not a structured record"

/-- The `for eval_item in evals` loop of `evaluate_papers`: each record entry
is stored into the ledger (mutating the global dict immediately); a
malformed entry raises, ending the loop with the entries so far already
stored. -/
def evalLoop : List PayloadItem → Ledger → Nat → String × Ledger
  | [], led, count => (successMsg count, led)
  | .record e :: rest, led, count =>
    evalLoop rest (setEval led (rawEvalKey e) (mkEval e)) (count + 1)
  | .malformed :: _, led, _ => (entryErrorMsg, led)

/-- `CriticTool.evaluate_papers`.  `parsed = none` models a payload string
that `json.loads` rejects (the `json.JSONDecodeError` branch); `some items`
models a successfully parsed JSON array. -/
def evaluate_papers (parsed : Option (List PayloadItem)) (led : Ledger) :
    String × Ledger :=
  match parsed with
  | none => (jsonErrorMsg, led)
  | some items => evalLoop items led 0

/-- The record entries of a parsed payload, in order. -/
def recordsOf : List PayloadItem → List RawEval
  | [] => []
  | .record e :: rest => e :: recordsOf rest
  | .malformed :: rest => recordsOf rest

/-- Ingest every record entry of a payload (used to state what a fully
successful call stores). -/
def ingestAll : List PayloadItem → Ledger → Ledger
  | [], led => led
  | .record e :: rest, led => ingestAll rest (setEval led (rawEvalKey e) (mkEval e))
  | .malformed :: rest, led => ingestAll rest led

/-- Erase the caller-supplied `overall_score` key from a payload entry. -/
def clearOverall : PayloadItem → PayloadItem
  | .record e => .record { e with overall_score := none }
  | .malformed => .malformed

/-- Word accumulator for `pySplit`: `acc` holds the current word reversed. -/
def splitWsAux : List Char → List Char → List String
  | [], acc => if acc = [] then [] else [String.mk acc.reverse]
  | c :: cs, acc =>
    if c.isWhitespace then
      if acc = [] then splitWsAux cs []
      else String.mk acc.reverse :: splitWsAux cs []
    else splitWsAux cs (c :: acc)

/-- Python `str.split()` with no argument: split on whitespace runs,
dropping empty fragments. -/
def pySplit (s : String) : List String := splitWsAux s.data []

/-- `truncate_abstract(text, n)`: the placeholder and the empty string pass
through unchanged; otherwise texts longer than `n` words are cut to their
first `n` words joined by single spaces with `"..."` appended. -/
def truncate_abstract (text : String) (n : Nat) : String :=
  if text = "" ∨ text = "No abstract available." then text
  else
    let words := pySplit text
    if n < words.length then String.intercalate " " (words.take n) ++ "..."
    else text

/-- The reduced per-paper view built by
`CriticTool.get_papers_for_evaluation`. -/
structure EvalView where
  title : String
  authors : List String
  pub_year : Int
  abstract : String
  source : String
  citation_count : Int
  venue : String
deriving DecidableEq, Repr

def evalView (p : Paper) : EvalView :=
  { title := p.title
    authors := p.authors.take 3
    pub_year := p.pub_year
    abstract := truncate_abstract p.abstract 150
    source := p.source
    citation_count := p.citation_count
    venue := p.venue }

/-- The JSON object returned by `get_papers_for_evaluation`: either the
error object `{"error": ...}` (which has no `papers` key) or the object
`{"total_papers": ..., "papers": [...]}`. -/
inductive SnapshotResult
  | error (msg : String)
  | ok (total_papers : Nat) (papers : List EvalView)
deriving DecidableEq, Repr

/-- `CriticTool.get_papers_for_evaluation` over the paper store. -/
def get_papers_for_evaluation (papers : List Paper) : SnapshotResult :=
  if papers = [] then .error "No papers available for evaluation"
  else .ok (papers.map evalView).length (papers.map evalView)

/-- The dedup key of `CriticTool.deduplicate_collection`:
`"".join(filter(str.isalnum, title.lower())).strip()`. -/
def dedupKey (t : String) : String :=
  pyStrip (String.mk ((pyLower t).data.filter Char.isAlphanum))

/-- The dedup loop of `deduplicate_collection`, with the `seen_titles` set
as an accumulator: records whose key is empty or `"untitled"` are always
kept; otherwise the first occurrence of each key is kept. -/
def dedupPass : List Paper → List String → List Paper
  | [], _ => []
  | p :: ps, seen =>
    let k := dedupKey p.title
    if k = "" ∨ k = "untitled" then p :: dedupPass ps seen
    else if k ∈ seen then dedupPass ps seen
    else p :: dedupPass ps (k :: seen)

/-- `CriticTool.deduplicate_collection`: returns the new `COLLECTED_PAPERS`
contents together with the status string. -/
def deduplicate_collection (papers : List Paper) : List Paper × String :=
  if papers = [] then (papers, "No papers found in collection to deduplicate.")
  else
    let u := dedupPass papers []
    (u, "Deduplication Success: Removed " ++ toString (papers.length - u.length) ++
        " duplicates. " ++ toString u.length ++ " unique papers remain.")

/-- The report composer's join key: `p['title'].lower().strip()`. -/
def reportKey (t : String) : String := pyStrip (pyLower t)

/-- The fields the report join loop assigns onto a surviving paper: when the
ledger has an entry, the full evaluation plus `critic_rank` = its
`overall_score` and `critic_action` = its `recommended_action`; otherwise
`critic_rank = 3.0` and `critic_action = 'include'` (the `else` branch does
not touch `critic_evaluation`). -/
def attachEval (p : Paper) (e : Option EvalRecord) : Paper :=
  match e with
  | some ev =>
    { p with critic_evaluation := some ev
             critic_rank := some ev.overall_score
             critic_action := some ev.recommended_action }
  | none => { p with critic_rank := some 3, critic_action := some "include" }

/-- The dedup-and-join loop shared by `PDFReportTool.generate_report` and
`HTMLReportTool.generate_html_report`.  Returns the store after the loop
(the loop mutates the stored dicts in place, so first occurrences carry the
attached critic fields while later duplicates are untouched) together with
the `unique_papers` list. -/
def joinStore : List Paper → List String → Ledger → List Paper × List Paper
  | [], _, _ => ([], [])
  | p :: ps, seen, led =>
    let k := reportKey p.title
    if k ∈ seen then
      let r := joinStore ps seen led
      (p :: r.1, r.2)
    else
      let p2 := attachEval p (lookupEval led k)
      let r := joinStore ps (k :: seen) led
      (p2 :: r.1, p2 :: r.2)

/-- The plain title-dedup underlying `joinStore` (first occurrence per
`reportKey`), used to state what the join keeps. -/
def plainDedup : List Paper → List String → List Paper
  | [], _ => []
  | p :: ps, seen =>
    let k := reportKey p.title
    if k ∈ seen then plainDedup ps seen
    else p :: plainDedup ps (k :: seen)

/-- The sort key of the report composer:
`(x.get('critic_rank', 0), x.get('citation_count', 0))`. -/
def sortKey (p : Paper) : ℚ × Int := (p.critic_rank.getD 0, p.citation_count)

/-- Non-strict lexicographic order on sort keys (Python tuple comparison). -/
def rankLe (x y : ℚ × Int) : Prop :=
  x.1 < y.1 ∨ (x.1 = y.1 ∧ x.2 ≤ y.2)

instance : ∀ x y, Decidable (rankLe x y) := fun x y => by
  unfold rankLe; exact inferInstance

/-- `a` may precede `b` in the descending sort: its key is lex-≥. -/
def paperBefore (a b : Paper) : Prop := rankLe (sortKey b) (sortKey a)

instance : ∀ a b, Decidable (paperBefore a b) := fun a b => by
  unfold paperBefore; exact inferInstance

instance : IsTotal Paper paperBefore where
  total a b := by
    unfold paperBefore rankLe
    rcases lt_trichotomy (sortKey b).1 (sortKey a).1 with h | h | h
    · exact Or.inl (Or.inl h)
    · rcases le_total (sortKey b).2 (sortKey a).2 with h2 | h2
      · exact Or.inl (Or.inr ⟨h, h2⟩)
      · exact Or.inr (Or.inr ⟨h.symm, h2⟩)
    · exact Or.inr (Or.inl h)

instance : IsTrans Paper paperBefore where
  trans a b c hab hbc := by
    unfold paperBefore rankLe at hab hbc ⊢
    rcases hbc with h2 | ⟨he2, hle2⟩
    · rcases hab with h | ⟨he, _⟩
      · exact Or.inl (h2.trans h)
      · exact Or.inl (lt_of_lt_of_eq h2 he)
    · rcases hab with h | ⟨he, hle⟩
      · exact Or.inl (lt_of_eq_of_lt he2 h)
      · exact Or.inr ⟨he2.trans he, hle2.trans hle⟩

/-- `unique_papers.sort(key=..., reverse=True)`.  Python's `list.sort` is a
stable sort, and a stable descending sort is uniquely determined by its
input, so it extensionally equals this stable insertion sort with the
non-strict descending comparison `paperBefore`. -/
def pySortDesc (l : List Paper) : List Paper := List.insertionSort paperBefore l

/-- Result of the shared join/rank/filter pipeline of the two report tools:
the mutated store, the sorted `unique_papers`, the `included_papers`, and
`excluded_count`. -/
structure ComposeResult where
  store : List Paper
  sorted : List Paper
  included : List Paper
  excluded_count : Nat
deriving DecidableEq, Repr

/-- The join/sort/filter pipeline that both `generate_report` and
`generate_html_report` run verbatim before rendering. -/
def composePapers (papers : List Paper) (led : Ledger) : ComposeResult :=
  let j := joinStore papers [] led
  let sorted := pySortDesc j.2
  let included := sorted.filter (fun p => p.critic_action ≠ some "exclude")
  { store := j.1
    sorted := sorted
    included := included
    excluded_count := sorted.length - included.length }

/-- The two global stores (`COLLECTED_PAPERS`, `CRITIC_EVALUATIONS`). -/
structure SysState where
  papers : List Paper
  evals : Ledger
deriving DecidableEq, Repr

def pdfSummaryMsg (included excluded : Nat) : String :=
  "PDF Generated: executive_summary.pdf (" ++ toString included ++ " papers" ++
    (if 0 < excluded then ", " ++ toString excluded ++ " excluded by critic" else "") ++
    ")"

def htmlSummaryMsg (included excluded : Nat) : String :=
  "HTML Generated: executive_summary.html (" ++ toString included ++ " papers" ++
    (if 0 < excluded then ", " ++ toString excluded ++ " excluded by critic" else "") ++
    ")"

/-- `PDFReportTool.generate_report`, restricted to its data behavior: the
empty-store guard, the join/sort/filter pipeline, the store mutation and
the returned status string.  The summary and subject feed only the rendered
markup (not modeled here beyond the helpers below); the PDF file write has
no effect on the two stores. -/
def generate_report (executive_summary subject : String) (st : SysState) :
    String × SysState :=
  if st.papers = [] then ("Error: Collection is empty.", st)
  else
    let c := composePapers st.papers st.evals
    (pdfSummaryMsg c.included.length c.excluded_count,
     { st with papers := c.store })

/-- `HTMLReportTool.generate_html_report`, same data behavior as the PDF
variant (the source duplicates the pipeline verbatim). -/
def generate_html_report (executive_summary subject : String) (st : SysState) :
    String × SysState :=
  if st.papers = [] then ("Error: Collection is empty.", st)
  else
    let c := composePapers st.papers st.evals
    (htmlSummaryMsg c.included.length c.excluded_count,
     { st with papers := c.store })

/-- Erase the critic fields the report join attaches (used to state frame
conditions about the store). -/
def stripCritic (p : Paper) : Paper :=
  { p with critic_rank := none, critic_action := none, critic_evaluation := none }

/-- Tag removal of `BeautifulSoup(text, "html.parser").get_text()`: characters
between `<` and `>` are markup, everything else is text.  (The HTML parser's
full behavior is richer; this is the fragment the development reasons
about.)  The Boolean flag records whether the scan is inside a tag. -/
def stripTags : List Char → Bool → List Char
  | [], _ => []
  | c :: cs, true => if c = '>' then stripTags cs false else stripTags cs true
  | c :: cs, false => if c = '<' then stripTags cs true else c :: stripTags cs false

/-- Entity decoding of `get_text()`, restricted to a basic entity table. -/
def decodeEntities : List Char → List Char
  | '&' :: 'a' :: 'm' :: 'p' :: ';' :: rest => '&' :: decodeEntities rest
  | '&' :: 'l' :: 't' :: ';' :: rest => '<' :: decodeEntities rest
  | '&' :: 'g' :: 't' :: ';' :: rest => '>' :: decodeEntities rest
  | '&' :: 'q' :: 'u' :: 'o' :: 't' :: ';' :: rest => '"' :: decodeEntities rest
  | c :: rest => c :: decodeEntities rest
  | [] => []

/-- `BeautifulSoup(text, "html.parser").get_text()` as modeled here. -/
def getTextModel (s : String) : List Char :=
  decodeEntities (stripTags s.data false)

/-- `unicodedata.normalize('NFKD', text)` restricted to the characters this
development reasons about: the horizontal ellipsis decomposes to `...`, the
non-breaking space to a plain space; NFKD is the identity on ASCII. -/
def nfkdChar (c : Char) : List Char :=
  if c = '…' then ['.', '.', '.']
  else if c = ' ' then [' ']
  else [c]

/-- The `replacements` table of `clean_text`, applied by a loop of
`str.replace` calls.  Every pattern is a single character and no replacement
re-introduces a pattern character, so the loop equals this character-wise
expansion. -/
def replaceChar (c : Char) : List Char :=
  if c = '‐' ∨ c = '‑' ∨ c = '‒' ∨ c = '–' then ['-']
  else if c = '—' ∨ c = '―' then ['-', '-']
  else if c = '‘' ∨ c = '’' then ['\x27']
  else if c = '“' ∨ c = '”' then ['"']
  else if c = '…' then ['.', '.', '.']
  else if c = ' ' then [' ']
  else [c]

/-- `xml.sax.saxutils.escape`: `&` is replaced first, then `<` and `>`, which
equals this character-wise expansion. -/
def escChar (c : Char) : List Char :=
  if c = '&' then '&' :: 'a' :: 'm' :: 'p' :: ';' :: []
  else if c = '<' then '&' :: 'l' :: 't' :: ';' :: []
  else if c = '>' then '&' :: 'g' :: 't' :: ';' :: []
  else [c]

/-- `clean_text(text)`.  `none` models Python `None`; `if not text` catches
both `None` and the empty string. -/
def clean_text (text : Option String) : String :=
  match text with
  | none => "No abstract available."
  | some s =>
    if s = "" then "No abstract available."
    else
      String.mk
        ((((getTextModel s).flatMap nfkdChar).flatMap replaceChar).flatMap escChar)

/-- A character list is safely escaped for markup: it contains no literal
`<` or `>`, and every `&` starts one of the escape sequences `&amp;`,
`&lt;`, `&gt;`. -/
def escOk : List Char → Bool
  | [] => true
  | c :: rest =>
    if c = '<' then false
    else if c = '>' then false
    else if c = '&' then
      match rest with
      | 'a' :: 'm' :: 'p' :: ';' :: rest2 => escOk rest2
      | 'l' :: 't' :: ';' :: rest2 => escOk rest2
      | 'g' :: 't' :: ';' :: rest2 => escOk rest2
      | _ => false
    else escOk rest

/-- Substring test (used to state what a rendered line carries). -/
def strContains (s pat : String) : Bool :=
  s.data.tails.any (fun t => pat.data.isPrefixOf t)

/-- The table-of-contents quality marker of `PDFReportTool.generate_report`
(the `prefix` variable): `"★★ "` for score ≥ 4.5, `"★ "` for ≥ 4.0, empty
otherwise. -/
def tocPrefix (score : ℚ) : String :=
  if 4.5 ≤ score then "★★ "
  else if 4 ≤ score then "★ "
  else ""

/-- The bibliography title line of `PDFReportTool.generate_report`
(`title_text`): evaluated papers with score ≥ 4.5 are marked
`★★ EXCEPTIONAL:`, with score ≥ 4.0 `★ HIGHLY RATED:`; all other papers get
the plain numbered bold title. -/
def bibTitleText (i : Nat) (p : Paper) : String :=
  let score := p.critic_rank.getD 3
  let anchor := "<a name=\x27paper" ++ toString i ++ "\x27/>"
  if p.critic_evaluation.isSome ∧ 4.5 ≤ score then
    anchor ++ "★★ <b>EXCEPTIONAL: " ++ p.title ++ "</b>"
  else if p.critic_evaluation.isSome ∧ 4 ≤ score then
    anchor ++ "★ <b>HIGHLY RATED: " ++ p.title ++ "</b>"
  else
    anchor ++ "<b>" ++ toString i ++ ". " ++ p.title ++ "</b>"

/-- The qualitative label of the critic-assessment block in the PDF
bibliography (`score_label`): the four-bucket scheme over the overall
score. -/
def scoreLabel (overall : ℚ) : String :=
  if 4.5 ≤ overall then "EXCEPTIONAL"
  else if 4 ≤ overall then "EXCELLENT"
  else if 3.5 ≤ overall then "GOOD"
  else "ACCEPTABLE"

/-! Concrete sample data used by the examples the claims quote and by the
witnesses. -/

/-- An evaluation record whose three sub-scores all equal `overall` (so its
composite is `overall` as well). -/
def sampleEval (overall : ℚ) (action : String) : EvalRecord :=
  { relevance_score := overall
    methodological_soundness := overall
    impact_score := overall
    redundancy_flag := false
    flags := []
    recommended_action := action
    rationale := ""
    overall_score := overall }

def samplePaper (t : String) (cit : Int) : Paper :=
  { title := t
    authors := ["A. Author"]
    pub_year := 2020
    abstract := "An abstract."
    url := "http://example.org"
    source := "arXiv"
    citation_count := cit
    venue := "arXiv Preprint"
    paper_id := "id-1" }

/-- Ledger for the three-paper scenario of the spec: ranks 4.8, 4.2 (action
`exclude`) and 3.0. -/
def sampleLedger : Ledger :=
  [("alpha", sampleEval 4.8 "include"),
   ("beta", sampleEval 4.2 "exclude"),
   ("gamma", sampleEval 3 "include")]

/-- Store for the three-paper scenario, deliberately out of rank order. -/
def samplePapers : List Paper :=
  [samplePaper "gamma" 5, samplePaper "alpha" 1, samplePaper "beta" 9]

/-- A raw payload entry that supplies `relevance_score = 5` and its own
`overall_score = 1`; the source must store `5*0.4 + 3*0.3 + 3*0.3 = 3.8`. -/
def sampleRawEval : RawEval :=
  { paper_title := some "T", relevance_score := some 5, overall_score := some 1 }

def rawEvalA : RawEval := { paper_title := some "a" }

def rawEvalB : RawEval := { paper_title := some "b" }

/-- A parsed payload such as `[{"paper_title": "a"}, 5, {"paper_title": "b"}]`:
the middle element is valid JSON but not a structured record. -/
def mixedPayload : List PayloadItem :=
  [.record rawEvalA, .malformed, .record rawEvalB]

/-- Store with two titles that differ only by case and surrounding
whitespace, plus an empty-titled record. -/
def dupPapers : List Paper :=
  [samplePaper "Deep Learning!" 1, samplePaper "  deep learning " 2, samplePaper "" 3]

/-- A paper carrying an evaluation with composite score 4.2 (the
`EXCELLENT` bucket of the four-bucket scheme). -/
def highRatedPaper : Paper :=
  { samplePaper "T" 0 with
      critic_rank := some 4.2
      critic_action := some "include"
      critic_evaluation := some (sampleEval 4.2 "include") }

end QuestScholar

unseal Rat.ofScientific Rat.mul Rat.add Rat.sub Rat.inv

namespace QuestScholar

/-! ### Theorems -/

theorem stripCritic_attachEval (p : Paper) (e : Option EvalRecord) :
    stripCritic (attachEval p e) = stripCritic p := by
  cases e <;> rfl

theorem joinStore_fst_strip (led : Ledger) (l : List Paper) :
    ∀ seen : List String, (joinStore l seen led).1.map stripCritic = l.map stripCritic := by
  induction l with
  | nil => intro seen; rfl
  | cons p ps ih =>
    intro seen
    simp only [joinStore]
    split
    · simp [ih]
    · simp [ih, stripCritic_attachEval]

/-- C10: generating a PDF or HTML report never changes the Paper Store's
membership or relative order and never changes the Critic Ledger; the only
state mutation is attaching the derived `critic_rank`, `critic_action` and
`critic_evaluation` fields onto the stored paper records (sorting and
exclusion filtering happen on a separate list). -/
theorem c10_report_frame_effect (e s : String) (st : SysState) :
    ((generate_report e s st).2.evals = st.evals
      ∧ (generate_report e s st).2.papers.map stripCritic = st.papers.map stripCritic)
    ∧ ((generate_html_report e s st).2.evals = st.evals
      ∧ (generate_html_report e s st).2.papers.map stripCritic = st.papers.map stripCritic) := by
  by_cases h : st.papers = [] <;>
    simp [generate_report, generate_html_report, composePapers, h, joinStore_fst_strip]

/-- C7: on an empty Paper Store both report generators return the error
string `"Error: Collection is empty."` (instead of raising) and leave the
state untouched. -/
theorem c7_empty_store_error (e s : String) (st : SysState) (h : st.papers = []) :
    generate_report e s st = ("Error: Collection is empty.", st)
    ∧ generate_html_report e s st = ("Error: Collection is empty.", st) := by
  simp [generate_report, generate_html_report, h]

theorem c7_witness :
    generate_report "sum" "subj" ⟨[], []⟩ = ("Error: Collection is empty.", ⟨[], []⟩)
    ∧ generate_html_report "sum" "subj" ⟨[], []⟩ = ("Error: Collection is empty.", ⟨[], []⟩) :=
  c7_empty_store_error "sum" "subj" ⟨[], []⟩ rfl

/-- C6: `get_papers_for_evaluation` on an empty store returns the error
object (which has no `papers` field); on a non-empty store it returns a
total count equal to the number of papers together with, for every paper,
the reduced view: title, at most the first 3 authors, year, the abstract
truncated to 150 words, source, citation count and venue. -/
theorem c6_snapshot_for_evaluation :
    get_papers_for_evaluation [] = SnapshotResult.error "No papers available for evaluation"
    ∧ (∀ papers : List Paper, papers ≠ [] →
        get_papers_for_evaluation papers = SnapshotResult.ok papers.length (papers.map evalView))
    ∧ (∀ p : Paper,
        (evalView p).title = p.title
        ∧ (evalView p).authors = p.authors.take 3
        ∧ (evalView p).authors.length ≤ 3
        ∧ (evalView p).pub_year = p.pub_year
        ∧ (evalView p).abstract = truncate_abstract p.abstract 150
        ∧ (evalView p).source = p.source
        ∧ (evalView p).citation_count = p.citation_count
        ∧ (evalView p).venue = p.venue) := by
  refine ⟨rfl, fun papers h => ?_, fun p => ?_⟩
  · simp [get_papers_for_evaluation, h]
  · refine ⟨rfl, rfl, ?_, rfl, rfl, rfl, rfl, rfl⟩
    simp [evalView]

theorem c6_witness :
    get_papers_for_evaluation [samplePaper "alpha" 1]
      = SnapshotResult.ok 1 [evalView (samplePaper "alpha" 1)] := by
  simpa using c6_snapshot_for_evaluation.2.1 [samplePaper "alpha" 1] (by simp)

theorem dedupPass_cons_triv {p : Paper} {ps : List Paper} {seen : List String}
    (h : dedupKey p.title = "" ∨ dedupKey p.title = "untitled") :
    dedupPass (p :: ps) seen = p :: dedupPass ps seen := by
  simp only [dedupPass]
  rw [if_pos h]

theorem dedupPass_cons_seen {p : Paper} {ps : List Paper} {seen : List String}
    (h1 : ¬(dedupKey p.title = "" ∨ dedupKey p.title = "untitled"))
    (h2 : dedupKey p.title ∈ seen) :
    dedupPass (p :: ps) seen = dedupPass ps seen := by
  simp only [dedupPass]
  rw [if_neg h1, if_pos h2]

theorem dedupPass_cons_new {p : Paper} {ps : List Paper} {seen : List String}
    (h1 : ¬(dedupKey p.title = "" ∨ dedupKey p.title = "untitled"))
    (h2 : dedupKey p.title ∉ seen) :
    dedupPass (p :: ps) seen = p :: dedupPass ps (dedupKey p.title :: seen) := by
  simp only [dedupPass]
  rw [if_neg h1, if_neg h2]

theorem dedupPass_idem (l : List Paper) :
    ∀ seen, dedupPass (dedupPass l seen) seen = dedupPass l seen := by
  induction l with
  | nil => intro _; rfl
  | cons p ps ih =>
    intro seen
    by_cases h1 : dedupKey p.title = "" ∨ dedupKey p.title = "untitled"
    · rw [dedupPass_cons_triv h1, dedupPass_cons_triv h1, ih]
    · by_cases h2 : dedupKey p.title ∈ seen
      · rw [dedupPass_cons_seen h1 h2, ih]
      · rw [dedupPass_cons_new h1 h2, dedupPass_cons_new h1 h2, ih]

theorem dedupPass_sublist (l : List Paper) :
    ∀ seen, (dedupPass l seen).Sublist l := by
  induction l with
  | nil => intro _; simp [dedupPass]
  | cons p ps ih =>
    intro seen
    by_cases h1 : dedupKey p.title = "" ∨ dedupKey p.title = "untitled"
    · rw [dedupPass_cons_triv h1]; exact (ih seen).cons₂ p
    · by_cases h2 : dedupKey p.title ∈ seen
      · rw [dedupPass_cons_seen h1 h2]; exact (ih seen).cons p
      · rw [dedupPass_cons_new h1 h2]; exact (ih _).cons₂ p

theorem dedupPass_filter_triv (l : List Paper) :
    ∀ seen, (dedupPass l seen).filter
        (fun p => dedupKey p.title = "" ∨ dedupKey p.title = "untitled")
      = l.filter (fun p => dedupKey p.title = "" ∨ dedupKey p.title = "untitled") := by
  induction l with
  | nil => intro _; rfl
  | cons p ps ih =>
    intro seen
    by_cases h1 : dedupKey p.title = "" ∨ dedupKey p.title = "untitled"
    · rw [dedupPass_cons_triv h1]
      simp only [List.filter_cons, decide_eq_true_eq, if_pos h1, ih]
    · by_cases h2 : dedupKey p.title ∈ seen
      · rw [dedupPass_cons_seen h1 h2, ih]
        simp only [List.filter_cons, decide_eq_true_eq, if_neg h1]
      · rw [dedupPass_cons_new h1 h2]
        simp only [List.filter_cons, decide_eq_true_eq, if_neg h1, ih]

theorem dedupPass_filter_key (l : List Paper) (k : String)
    (hk : ¬(k = "" ∨ k = "untitled")) :
    ∀ seen, (dedupPass l seen).filter (fun p => dedupKey p.title = k)
      = if k ∈ seen then [] else (l.filter (fun p => dedupKey p.title = k)).take 1 := by
  induction l with
  | nil => intro seen; simp [dedupPass]
  | cons p ps ih =>
    intro seen
    by_cases h1 : dedupKey p.title = "" ∨ dedupKey p.title = "untitled"
    · have hpk : ¬ dedupKey p.title = k := fun e => hk (e ▸ h1)
      rw [dedupPass_cons_triv h1]
      simp only [List.filter_cons, decide_eq_true_eq, if_neg hpk, ih seen]
    · by_cases h2 : dedupKey p.title ∈ seen
      · rw [dedupPass_cons_seen h1 h2, ih seen]
        by_cases hpk : dedupKey p.title = k
        · rw [if_pos (hpk ▸ h2), if_pos (hpk ▸ h2)]
        · simp only [List.filter_cons, decide_eq_true_eq, if_neg hpk]
      · rw [dedupPass_cons_new h1 h2]
        by_cases hpk : dedupKey p.title = k
        · rw [if_neg (hpk ▸ h2)]
          simp only [List.filter_cons, decide_eq_true_eq, if_pos hpk, ih (dedupKey p.title :: seen)]
          rw [if_pos (by exact hpk ▸ List.mem_cons_self _ _)]
          simp
        · have hmem : (k ∈ dedupKey p.title :: seen) = (k ∈ seen) := by
            apply propext
            constructor
            · intro h
              rcases List.mem_cons.mp h with h | h
              · exact absurd h.symm hpk
              · exact h
            · intro h
              exact List.mem_cons_of_mem _ h
          simp only [List.filter_cons, decide_eq_true_eq, if_neg hpk,
            ih (dedupKey p.title :: seen), hmem]

theorem dedupPass_cons_ne_nil (p : Paper) (ps : List Paper) :
    dedupPass (p :: ps) [] ≠ [] := by
  by_cases h1 : dedupKey p.title = "" ∨ dedupKey p.title = "untitled"
  · rw [dedupPass_cons_triv h1]; simp
  · rw [dedupPass_cons_new h1 (by simp)]; simp

/-- C5: `deduplicate_collection` is idempotent — a second run returns the
same collection and removes 0 records (also in its status message); it is a
sublist of the input (so relative order is preserved), it keeps every
record with an empty or `"untitled"` normalized title, and for every other
normalized title it keeps exactly the first occurrence. -/
theorem c5_deduplicate_idempotent :
    (∀ papers : List Paper,
      (deduplicate_collection (deduplicate_collection papers).1).1
        = (deduplicate_collection papers).1)
    ∧ (∀ papers : List Paper,
      (deduplicate_collection papers).1.length
        - (deduplicate_collection (deduplicate_collection papers).1).1.length = 0)
    ∧ (∀ papers : List Paper, papers ≠ [] →
      (deduplicate_collection (deduplicate_collection papers).1).2
        = "Deduplication Success: Removed 0 duplicates. "
          ++ toString (deduplicate_collection papers).1.length ++ " unique papers remain.")
    ∧ (∀ papers : List Paper, (deduplicate_collection papers).1.Sublist papers)
    ∧ (∀ papers : List Paper,
      (deduplicate_collection papers).1.filter
          (fun p => dedupKey p.title = "" ∨ dedupKey p.title = "untitled")
        = papers.filter (fun p => dedupKey p.title = "" ∨ dedupKey p.title = "untitled"))
    ∧ (∀ (papers : List Paper) (k : String), ¬(k = "" ∨ k = "untitled") →
      (deduplicate_collection papers).1.filter (fun p => dedupKey p.title = k)
        = (papers.filter (fun p => dedupKey p.title = k)).take 1) := by
  have hne : ∀ papers : List Paper, papers ≠ [] →
      (deduplicate_collection papers).1 = dedupPass papers []
        ∧ dedupPass papers [] ≠ [] := by
    intro papers h
    match papers with
    | p :: ps => exact ⟨by simp [deduplicate_collection], dedupPass_cons_ne_nil p ps⟩
  have once : ∀ papers : List Paper,
      (deduplicate_collection (deduplicate_collection papers).1).1
        = (deduplicate_collection papers).1 := by
    intro papers
    by_cases h : papers = []
    · subst h; rfl
    · obtain ⟨h1, h2⟩ := hne papers h
      rw [h1, (hne _ h2).1, dedupPass_idem]
  refine ⟨once, fun papers => by rw [once]; exact Nat.sub_self _, ?_, ?_, ?_, ?_⟩
  · intro papers h
    obtain ⟨h1, h2⟩ := hne papers h
    rw [h1]
    have : deduplicate_collection (dedupPass papers []) =
        (dedupPass (dedupPass papers []) [],
          "Deduplication Success: Removed "
            ++ toString ((dedupPass papers []).length - (dedupPass (dedupPass papers []) []).length)
            ++ " duplicates. " ++ toString (dedupPass (dedupPass papers []) []).length
            ++ " unique papers remain.") := by
      simp [deduplicate_collection, h2]
    rw [this, dedupPass_idem, Nat.sub_self]
    show "Deduplication Success: Removed " ++ toString 0 ++ " duplicates. "
        ++ toString (dedupPass papers []).length ++ " unique papers remain." = _
    rw [show "Deduplication Success: Removed " ++ toString 0 ++ " duplicates. "
        = "Deduplication Success: Removed 0 duplicates. " from rfl]
  · intro papers
    by_cases h : papers = []
    · subst h; simp [deduplicate_collection]
    · rw [(hne papers h).1]; exact dedupPass_sublist papers []
  · intro papers
    by_cases h : papers = []
    · subst h; rfl
    · rw [(hne papers h).1]; exact dedupPass_filter_triv papers []
  · intro papers k hk
    by_cases h : papers = []
    · subst h; rfl
    · rw [(hne papers h).1]
      simpa using dedupPass_filter_key papers k hk []

theorem escOk_flatMap (l : List Char) : escOk (l.flatMap escChar) = true := by
  induction l with
  | nil => rfl
  | cons c rest ih =>
    rw [List.flatMap_cons]
    by_cases h1 : c = '&'
    · subst h1
      simpa [escChar, escOk] using ih
    · by_cases h2 : c = '<'
      · subst h2
        simpa [escChar, escOk] using ih
      · by_cases h3 : c = '>'
        · subst h3
          simpa [escChar, escOk] using ih
        · rw [show escChar c = [c] from by simp [escChar, h1, h2, h3]]
          rw [List.singleton_append, escOk.eq_def]
          simp [h1, h2, h3, ih]

theorem flatMap_ne_nil {f : Char → List Char} (hf : ∀ c, f c ≠ []) :
    ∀ l : List Char, l ≠ [] → l.flatMap f ≠ [] := by
  intro l hl
  match l with
  | c :: rest =>
    rw [List.flatMap_cons]
    intro hc
    exact hf c (List.append_eq_nil.mp hc).1

theorem nfkdChar_ne_nil (c : Char) : nfkdChar c ≠ [] := by
  unfold nfkdChar
  split_ifs <;> simp

theorem replaceChar_ne_nil (c : Char) : replaceChar c ≠ [] := by
  unfold replaceChar
  split_ifs <;> simp

theorem escChar_ne_nil (c : Char) : escChar c ≠ [] := by
  unfold escChar
  split_ifs <;> simp

/-- C8 (amended): `clean_text` always returns a safely escaped string (no
literal `<` or `>`, every `&` opening an inserted escape sequence), and on
empty or missing input returns the literal `"No abstract available."`; the
non-emptiness guarantee holds for inputs whose markup-stripped text is
non-empty — but not for every non-empty input with a visible character,
because pure-markup input strips to nothing (see the counterexample). -/
theorem c8_clean_text_amended :
    (∀ t : Option String, escOk (clean_text t).data = true)
    ∧ clean_text none = "No abstract available."
    ∧ clean_text (some "") = "No abstract available."
    ∧ (∀ s : String, s ≠ "" → getTextModel s ≠ [] → clean_text (some s) ≠ "") := by
  refine ⟨?_, rfl, rfl, ?_⟩
  · intro t
    match t with
    | none => decide
    | some s =>
      by_cases h : s = ""
      · subst h; decide
      · simp only [clean_text, if_neg h]
        exact escOk_flatMap _
  · intro s hs hg
    simp only [clean_text, if_neg hs]
    intro he
    exact flatMap_ne_nil escChar_ne_nil _
      (flatMap_ne_nil replaceChar_ne_nil _
        (flatMap_ne_nil nfkdChar_ne_nil _ hg))
      (congrArg String.data he)

theorem c8_witness :
    escOk (clean_text (some "a<b & c")).data = true
    ∧ ("hello" : String) ≠ ""
    ∧ getTextModel "hello" ≠ []
    ∧ clean_text (some "hello") ≠ "" :=
  ⟨c8_clean_text_amended.1 (some "a<b & c"), by decide, by decide,
   c8_clean_text_amended.2.2.2 "hello" (by decide) (by decide)⟩

/-- C8 counterexample: the input `"<b></b>"` is non-empty and contains
visible (non-whitespace) characters, yet `clean_text` returns the empty
string: the HTML parser strips the tags and no text remains.  This refutes
"never returns null/empty for non-null input containing at least one
visible character". -/
theorem c8_counterexample :
    ("<b></b>" : String) ≠ ""
    ∧ "<b></b>".data.any (fun c => !c.isWhitespace) = true
    ∧ clean_text (some "<b></b>") = "" := by
  decide

theorem lookupEval_setEval (k j : String) (v : EvalRecord) :
    ∀ led : Ledger, lookupEval (setEval led k v) j
      = if k = j then some v else lookupEval led j := by
  intro led
  induction led with
  | nil => simp [setEval, lookupEval]
  | cons kv rest ih =>
    obtain ⟨k2, v2⟩ := kv
    by_cases h : k2 = k
    · subst h
      simp only [setEval, if_pos rfl, lookupEval]
      by_cases hj : k2 = j
      · simp [hj]
      · simp [hj]
    · simp only [setEval, if_neg h, lookupEval, ih]
      by_cases hj : k2 = j
      · have hkj : ¬ k = j := fun e => h (hj.trans e.symm)
        rw [if_pos hj, if_neg hkj, if_pos hj]
      · by_cases hk : k = j
        · rw [if_neg hj, if_pos hk, if_pos hk]
        · rw [if_neg hj, if_neg hk, if_neg hk, if_neg hj]

theorem evalLoop_lookup (items : List PayloadItem) :
    ∀ (led : Ledger) (count : Nat) (k : String) (rec : EvalRecord),
      lookupEval (evalLoop items led count).2 k = some rec →
      lookupEval led k = some rec
        ∨ ∃ e ∈ recordsOf items, rawEvalKey e = k ∧ rec = mkEval e := by
  induction items with
  | nil => intro led count k rec h; exact Or.inl h
  | cons item rest ih =>
    intro led count k rec h
    match item with
    | .malformed =>
      simp only [evalLoop] at h
      exact Or.inl h
    | .record e =>
      simp only [evalLoop] at h
      rcases ih _ _ k rec h with h2 | ⟨e2, he2, hk, hrec⟩
      · rw [lookupEval_setEval] at h2
        by_cases hke : rawEvalKey e = k
        · rw [if_pos hke] at h2
          refine Or.inr ⟨e, ?_, hke, (Option.some_inj.mp h2).symm⟩
          simp [recordsOf]
        · rw [if_neg hke] at h2
          exact Or.inl h2
      · refine Or.inr ⟨e2, ?_, hk, hrec⟩
        simp only [recordsOf, List.mem_cons]
        exact Or.inr he2

theorem mkEval_clearOverall (e : RawEval) :
    mkEval { e with overall_score := none } = mkEval e := by
  cases e
  rfl

theorem rawEvalKey_clearOverall (e : RawEval) :
    rawEvalKey { e with overall_score := none } = rawEvalKey e := by
  cases e
  rfl

theorem evalLoop_clearOverall (items : List PayloadItem) :
    ∀ (led : Ledger) (count : Nat),
      evalLoop (items.map clearOverall) led count = evalLoop items led count := by
  induction items with
  | nil => intro _ _; rfl
  | cons item rest ih =>
    intro led count
    match item with
    | .malformed => rfl
    | .record e =>
      simp only [List.map, clearOverall, evalLoop, mkEval_clearOverall,
        rawEvalKey_clearOverall, ih]

/-- C1: every record held by the ledger after `evaluate_papers` either
predates the call or is exactly `mkEval e` for some payload entry `e`, in
which case its stored `overall_score` is `0.4*relevance + 0.3*methodology
+ 0.3*impact` over `e`'s sub-scores with missing ones defaulting to 3.0;
and the result of the call is unchanged when every entry's supplied
`overall_score` key is erased — that field is ignored and overwritten. -/
theorem c1_overall_score_recomputed :
    (∀ (items : List PayloadItem) (led : Ledger) (k : String) (rec : EvalRecord),
      lookupEval (evaluate_papers (some items) led).2 k = some rec →
      lookupEval led k = some rec
        ∨ ∃ e ∈ recordsOf items, rawEvalKey e = k ∧ rec = mkEval e
            ∧ rec.overall_score = e.relevance_score.getD 3 * 0.4
                + e.methodological_soundness.getD 3 * 0.3
                + e.impact_score.getD 3 * 0.3)
    ∧ (∀ (parsed : Option (List PayloadItem)) (led : Ledger),
        evaluate_papers (parsed.map (List.map clearOverall)) led
          = evaluate_papers parsed led) := by
  constructor
  · intro items led k rec h
    rcases evalLoop_lookup items led 0 k rec h with h2 | ⟨e, he, hk, hrec⟩
    · exact Or.inl h2
    · exact Or.inr ⟨e, he, hk, hrec, by rw [hrec]; rfl⟩
  · intro parsed led
    match parsed with
    | none => rfl
    | some items =>
      simp only [Option.map, evaluate_papers, evalLoop_clearOverall]

theorem c1_witness :
    lookupEval [] "t" = some (mkEval sampleRawEval)
      ∨ ∃ e ∈ recordsOf [.record sampleRawEval], rawEvalKey e = "t"
          ∧ mkEval sampleRawEval = mkEval e
          ∧ (mkEval sampleRawEval).overall_score = e.relevance_score.getD 3 * 0.4
              + e.methodological_soundness.getD 3 * 0.3
              + e.impact_score.getD 3 * 0.3 :=
  c1_overall_score_recomputed.1 [.record sampleRawEval] [] "t" (mkEval sampleRawEval)
    (by decide)

theorem evalLoop_all_records (items : List PayloadItem) :
    ∀ (led : Ledger) (count : Nat),
      (∀ x ∈ items, ∃ e, x = PayloadItem.record e) →
      evalLoop items led count = (successMsg (count + items.length), ingestAll items led) := by
  induction items with
  | nil => intro led count _; rfl
  | cons item rest ih =>
    intro led count h
    obtain ⟨e, rfl⟩ := h item (List.mem_cons_self _ _)
    simp only [evalLoop, ingestAll]
    rw [ih _ _ (fun x hx => h x (List.mem_cons_of_mem _ hx))]
    have harith : count + 1 + rest.length = count + (rest.length + 1) := by omega
    simp [harith]

theorem evalLoop_abort (pre : List RawEval) (post : List PayloadItem) :
    ∀ (led : Ledger) (count : Nat),
      evalLoop (pre.map PayloadItem.record ++ PayloadItem.malformed :: post) led count
        = (entryErrorMsg, ingestAll (pre.map PayloadItem.record) led) := by
  induction pre with
  | nil => intro led count; rfl
  | cons e rest ih =>
    intro led count
    simp only [List.map, List.cons_append, evalLoop, ingestAll]
    exact ih _ _

/-- C2 (amended): when the payload string is not valid JSON the call
returns a format error and ingests nothing; when the parsed payload is a
sequence of records, every entry is ingested independently with its own
defaults; but when the parsed payload contains a non-record element, the
call returns an error after having already ingested every record entry
before that element and skipping everything after it — partial ingestion
is possible. -/
theorem c2_error_handling_amended :
    (∀ led : Ledger, evaluate_papers none led = (jsonErrorMsg, led))
    ∧ (∀ (items : List PayloadItem) (led : Ledger),
        (∀ x ∈ items, ∃ e, x = PayloadItem.record e) →
        evaluate_papers (some items) led = (successMsg items.length, ingestAll items led))
    ∧ (∀ (pre : List RawEval) (post : List PayloadItem) (led : Ledger),
        evaluate_papers
            (some (pre.map PayloadItem.record ++ PayloadItem.malformed :: post)) led
          = (entryErrorMsg, ingestAll (pre.map PayloadItem.record) led)) := by
  refine ⟨fun led => rfl, fun items led h => ?_, fun pre post led => evalLoop_abort pre post led 0⟩
  simpa using evalLoop_all_records items led 0 h

theorem c2_witness :
    (∀ x ∈ [PayloadItem.record rawEvalA], ∃ e, x = PayloadItem.record e)
    ∧ evaluate_papers (some [PayloadItem.record rawEvalA]) []
        = (successMsg 1, ingestAll [PayloadItem.record rawEvalA] []) :=
  ⟨fun x hx => ⟨rawEvalA, List.mem_singleton.mp hx⟩,
   c2_error_handling_amended.2.1 [PayloadItem.record rawEvalA] []
     (fun x hx => ⟨rawEvalA, List.mem_singleton.mp hx⟩)⟩

/-- C2 counterexample: the payload `[{"paper_title": "a"}, 5,
{"paper_title": "b"}]` parses as JSON but is not a sequence of structured
records; the call returns an error, yet the entry for `"a"` has been
ingested (so "ingests no entries" fails) and the entry for `"b"` has not
(so "a malformed entry does not abort the remaining ones" fails too). -/
theorem c2_counterexample :
    (evaluate_papers (some mixedPayload) []).1 = entryErrorMsg
    ∧ lookupEval (evaluate_papers (some mixedPayload) []).2 "a" = some (mkEval rawEvalA)
    ∧ lookupEval (evaluate_papers (some mixedPayload) []).2 "b" = none := by
  decide

theorem attachEval_title (p : Paper) (e : Option EvalRecord) :
    (attachEval p e).title = p.title := by
  cases e <;> rfl

theorem joinStore_cons_seen {p : Paper} {ps : List Paper} {seen : List String}
    {led : Ledger} (h : reportKey p.title ∈ seen) :
    joinStore (p :: ps) seen led
      = (p :: (joinStore ps seen led).1, (joinStore ps seen led).2) := by
  simp only [joinStore]
  rw [if_pos h]

theorem joinStore_cons_new {p : Paper} {ps : List Paper} {seen : List String}
    {led : Ledger} (h : reportKey p.title ∉ seen) :
    joinStore (p :: ps) seen led
      = (attachEval p (lookupEval led (reportKey p.title))
            :: (joinStore ps (reportKey p.title :: seen) led).1,
         attachEval p (lookupEval led (reportKey p.title))
            :: (joinStore ps (reportKey p.title :: seen) led).2) := by
  simp only [joinStore]
  rw [if_neg h]

theorem plainDedup_cons_seen {p : Paper} {ps : List Paper} {seen : List String}
    (h : reportKey p.title ∈ seen) :
    plainDedup (p :: ps) seen = plainDedup ps seen := by
  simp only [plainDedup]
  rw [if_pos h]

theorem plainDedup_cons_new {p : Paper} {ps : List Paper} {seen : List String}
    (h : reportKey p.title ∉ seen) :
    plainDedup (p :: ps) seen = p :: plainDedup ps (reportKey p.title :: seen) := by
  simp only [plainDedup]
  rw [if_neg h]

theorem joinStore_snd_eq (led : Ledger) (l : List Paper) :
    ∀ seen, (joinStore l seen led).2
      = (plainDedup l seen).map
          (fun p => attachEval p (lookupEval led (reportKey p.title))) := by
  induction l with
  | nil => intro _; rfl
  | cons p ps ih =>
    intro seen
    by_cases h : reportKey p.title ∈ seen
    · rw [joinStore_cons_seen h, plainDedup_cons_seen h]
      exact ih seen
    · rw [joinStore_cons_new h, plainDedup_cons_new h]
      simp [ih]

theorem plainDedup_filter_key (l : List Paper) (k : String) :
    ∀ seen, (plainDedup l seen).filter (fun p => reportKey p.title = k)
      = if k ∈ seen then [] else (l.filter (fun p => reportKey p.title = k)).take 1 := by
  induction l with
  | nil => intro seen; simp [plainDedup]
  | cons p ps ih =>
    intro seen
    by_cases h2 : reportKey p.title ∈ seen
    · rw [plainDedup_cons_seen h2, ih seen]
      by_cases hpk : reportKey p.title = k
      · rw [if_pos (hpk ▸ h2), if_pos (hpk ▸ h2)]
      · simp only [List.filter_cons, decide_eq_true_eq, if_neg hpk]
    · rw [plainDedup_cons_new h2]
      by_cases hpk : reportKey p.title = k
      · rw [if_neg (hpk ▸ h2)]
        simp only [List.filter_cons, decide_eq_true_eq, if_pos hpk,
          ih (reportKey p.title :: seen)]
        rw [if_pos (by exact hpk ▸ List.mem_cons_self _ _)]
        simp
      · have hmem : (k ∈ reportKey p.title :: seen) = (k ∈ seen) := by
          apply propext
          constructor
          · intro h
            rcases List.mem_cons.mp h with h | h
            · exact absurd h.symm hpk
            · exact h
          · intro h
            exact List.mem_cons_of_mem _ h
        simp only [List.filter_cons, decide_eq_true_eq, if_neg hpk,
          ih (reportKey p.title :: seen), hmem]

theorem joinStore_attach_fields (led : Ledger) (papers : List Paper) :
    ∀ q ∈ (joinStore papers [] led).2,
      (∀ ev, lookupEval led (reportKey q.title) = some ev →
        q.critic_rank = some ev.overall_score
          ∧ q.critic_action = some ev.recommended_action
          ∧ q.critic_evaluation = some ev)
      ∧ (lookupEval led (reportKey q.title) = none →
          q.critic_rank = some 3 ∧ q.critic_action = some "include") := by
  intro q hq
  rw [joinStore_snd_eq] at hq
  obtain ⟨p, hp, rfl⟩ := List.mem_map.mp hq
  rw [attachEval_title]
  constructor
  · intro ev hev
    rw [hev]
    exact ⟨rfl, rfl, rfl⟩
  · intro hev
    rw [hev]
    exact ⟨rfl, rfl⟩

theorem joinStore_pair (led : Ledger) (p q : Paper)
    (h : reportKey p.title = reportKey q.title) :
    (joinStore [p, q] [] led).2
      = [attachEval p (lookupEval led (reportKey p.title))] := by
  rw [joinStore_cons_new (by simp)]
  rw [joinStore_cons_seen (by simp [← h])]
  rfl

/-- C4: the report composer's join-and-dedup step keeps exactly the first
occurrence of each lowercased, whitespace-trimmed title (so two store
entries whose titles differ only by case and surrounding whitespace leave
one survivor), and attaches to each survivor the ledger entry under the
same normalized key: when found, the evaluation with rank = composite
score and action = recommended action; when absent, rank = 3.0 and action
= `"include"`. -/
theorem c4_report_dedup_join :
    (∀ (papers : List Paper) (led : Ledger),
      (joinStore papers [] led).2
        = (plainDedup papers []).map
            (fun p => attachEval p (lookupEval led (reportKey p.title)))
      ∧ (∀ k : String, (plainDedup papers []).filter (fun p => reportKey p.title = k)
          = (papers.filter (fun p => reportKey p.title = k)).take 1)
      ∧ (∀ q ∈ (joinStore papers [] led).2,
          (∀ ev, lookupEval led (reportKey q.title) = some ev →
            q.critic_rank = some ev.overall_score
              ∧ q.critic_action = some ev.recommended_action
              ∧ q.critic_evaluation = some ev)
          ∧ (lookupEval led (reportKey q.title) = none →
              q.critic_rank = some 3 ∧ q.critic_action = some "include")))
    ∧ (∀ (led : Ledger) (p q : Paper), reportKey p.title = reportKey q.title →
        (joinStore [p, q] [] led).2
          = [attachEval p (lookupEval led (reportKey p.title))]) := by
  refine ⟨fun papers led => ⟨joinStore_snd_eq led papers [], fun k => ?_,
    joinStore_attach_fields led papers⟩, joinStore_pair⟩
  simpa using plainDedup_filter_key papers k []

theorem c4_witness :
    reportKey (samplePaper "Deep Learning" 1).title
        = reportKey (samplePaper "  deep learning  " 2).title
    ∧ (joinStore [samplePaper "Deep Learning" 1, samplePaper "  deep learning  " 2] [] []).2
        = [attachEval (samplePaper "Deep Learning" 1)
            (lookupEval [] (reportKey (samplePaper "Deep Learning" 1).title))] :=
  ⟨by decide, c4_report_dedup_join.2 [] _ _ (by decide)⟩

theorem pySortDesc_sorted (l : List Paper) :
    List.Pairwise paperBefore (pySortDesc l) :=
  List.sorted_insertionSort paperBefore l

theorem pySortDesc_perm (l : List Paper) : (pySortDesc l).Perm l :=
  List.perm_insertionSort paperBefore l

theorem length_sub_filter_action (l : List Paper) :
    l.length - (l.filter (fun p => p.critic_action ≠ some "exclude")).length
      = (l.filter (fun p => p.critic_action = some "exclude")).length := by
  have hp : (fun p : Paper => decide (p.critic_action ≠ some "exclude"))
      = fun p : Paper => !decide (p.critic_action = some "exclude") := by
    funext p
    exact decide_not
  have hlen :=
    (List.filter_append_perm (fun p : Paper => p.critic_action = some "exclude") l).length_eq
  simp only [List.length_append] at hlen
  simp only [hp]
  omega

/-- C3: for every store and ledger the report composer's `unique_papers` is
sorted descending by the pair (rank, citation count) with rank primary
(`paperBefore`), is a permutation of the joined deduplicated list, and is
then partitioned by action `"exclude"` with the excluded count reported; in
the concrete three-paper scenario with ranks 4.8, 4.2 (excluded), 3.0 the
included list is exactly [4.8, 3.0] in that order and the excluded count
is 1. -/
theorem c3_sort_and_partition :
    (∀ (papers : List Paper) (led : Ledger),
      ((composePapers papers led).sorted).Perm (joinStore papers [] led).2
      ∧ List.Pairwise paperBefore (composePapers papers led).sorted
      ∧ (composePapers papers led).included
          = ((composePapers papers led).sorted).filter
              (fun p => p.critic_action ≠ some "exclude")
      ∧ (composePapers papers led).excluded_count
          = (((composePapers papers led).sorted).filter
              (fun p => p.critic_action = some "exclude")).length)
    ∧ (composePapers samplePapers sampleLedger).included.map Paper.title
        = ["alpha", "gamma"]
    ∧ (composePapers samplePapers sampleLedger).included.map Paper.critic_rank
        = [some 4.8, some 3]
    ∧ (composePapers samplePapers sampleLedger).excluded_count = 1 := by
  refine ⟨fun papers led => ⟨pySortDesc_perm _, pySortDesc_sorted _, rfl,
    length_sub_filter_action _⟩, by decide, by decide, by decide⟩

/-- C9 (amended): the table-of-contents marker is `★★` for rank ≥ 4.5, `★`
for 4.0 ≤ rank < 4.5 and absent otherwise; the bibliography title line
carries the star tiers only for papers with an attached evaluation and
labels them `EXCEPTIONAL:` (≥ 4.5) and `HIGHLY RATED:` (≥ 4.0) — not the
four-bucket labels — while an unevaluated or lower-scored paper gets the
plain numbered title with no marker or label; the four-bucket labels
EXCEPTIONAL/EXCELLENT/GOOD/ACCEPTABLE with boundaries 4.5/4.0/3.5 appear in
the critic-assessment block (`scoreLabel`), not on the title line. -/
theorem c9_markers_amended :
    (∀ score : ℚ,
      (4.5 ≤ score → tocPrefix score = "★★ ")
      ∧ (4 ≤ score → score < 4.5 → tocPrefix score = "★ ")
      ∧ (score < 4 → tocPrefix score = ""))
    ∧ (∀ (i : Nat) (p : Paper), p.critic_evaluation.isSome = true →
      (4.5 ≤ p.critic_rank.getD 3 →
        bibTitleText i p = "<a name=\x27paper" ++ toString i ++ "\x27/>"
          ++ "★★ <b>EXCEPTIONAL: " ++ p.title ++ "</b>")
      ∧ (4 ≤ p.critic_rank.getD 3 → p.critic_rank.getD 3 < 4.5 →
        bibTitleText i p = "<a name=\x27paper" ++ toString i ++ "\x27/>"
          ++ "★ <b>HIGHLY RATED: " ++ p.title ++ "</b>"))
    ∧ (∀ (i : Nat) (p : Paper),
        p.critic_evaluation = none ∨ p.critic_rank.getD 3 < 4 →
        bibTitleText i p = "<a name=\x27paper" ++ toString i ++ "\x27/>"
          ++ "<b>" ++ toString i ++ ". " ++ p.title ++ "</b>")
    ∧ (∀ s : ℚ,
      (4.5 ≤ s → scoreLabel s = "EXCEPTIONAL")
      ∧ (4 ≤ s → s < 4.5 → scoreLabel s = "EXCELLENT")
      ∧ (3.5 ≤ s → s < 4 → scoreLabel s = "GOOD")
      ∧ (s < 3.5 → scoreLabel s = "ACCEPTABLE")) := by
  refine ⟨fun score => ⟨fun h => ?_, fun h1 h2 => ?_, fun h => ?_⟩,
    fun i p hp => ⟨fun h45 => ?_, fun h4 h45 => ?_⟩,
    fun i p hp => ?_,
    fun s => ⟨fun h => ?_, fun h1 h2 => ?_, fun h1 h2 => ?_, fun h => ?_⟩⟩
  · simp only [tocPrefix, if_pos h]
  · simp only [tocPrefix, if_neg (not_le.mpr h2), if_pos h1]
  · have h45 : ¬ (4.5 : ℚ) ≤ score :=
      not_le.mpr (lt_of_lt_of_le h (by decide))
    simp only [tocPrefix, if_neg h45, if_neg (not_le.mpr h)]
  · simp only [bibTitleText, if_pos (And.intro hp h45)]
  · simp only [bibTitleText,
      if_neg (fun hc : _ ∧ _ => absurd hc.2 (not_le.mpr h45)),
      if_pos (And.intro hp h4)]
  · have h45 : ¬(p.critic_evaluation.isSome = true ∧ 4.5 ≤ p.critic_rank.getD 3) := by
      rcases hp with hp | hp
      · intro hc
        rw [hp] at hc
        exact absurd hc.1 (by simp)
      · intro hc
        exact absurd hc.2 (not_le.mpr (lt_of_lt_of_le hp (by decide)))
    have h4 : ¬(p.critic_evaluation.isSome = true ∧ 4 ≤ p.critic_rank.getD 3) := by
      rcases hp with hp | hp
      · intro hc
        rw [hp] at hc
        exact absurd hc.1 (by simp)
      · intro hc
        exact absurd hc.2 (not_le.mpr hp)
    simp only [bibTitleText, if_neg h45, if_neg h4]
  · simp only [scoreLabel, if_pos h]
  · simp only [scoreLabel, if_neg (not_le.mpr h2), if_pos h1]
  · have h45 : ¬ (4.5 : ℚ) ≤ s :=
      not_le.mpr (lt_of_lt_of_le h2 (by decide))
    simp only [scoreLabel, if_neg h45, if_neg (not_le.mpr h2), if_pos h1]
  · have h45 : ¬ (4.5 : ℚ) ≤ s :=
      not_le.mpr (lt_of_lt_of_le h (by decide))
    have h4 : ¬ (4 : ℚ) ≤ s :=
      not_le.mpr (lt_of_lt_of_le h (by decide))
    simp only [scoreLabel, if_neg h45, if_neg h4, if_neg (not_le.mpr h)]

theorem c9_witness :
    ((4.5 : ℚ) ≤ 4.7 ∧ tocPrefix 4.7 = "★★ ")
    ∧ (highRatedPaper.critic_evaluation.isSome = true
        ∧ (4 : ℚ) ≤ highRatedPaper.critic_rank.getD 3
        ∧ highRatedPaper.critic_rank.getD 3 < 4.5
        ∧ bibTitleText 2 highRatedPaper
            = "<a name=\x27paper" ++ toString 2 ++ "\x27/>"
              ++ "★ <b>HIGHLY RATED: " ++ highRatedPaper.title ++ "</b>")
    ∧ ((3.5 : ℚ) ≤ 3.6 ∧ (3.6 : ℚ) < 4 ∧ scoreLabel 3.6 = "GOOD") :=
  ⟨⟨by decide, (c9_markers_amended.1 4.7).1 (by decide)⟩,
   ⟨by decide, by decide, by decide,
    (c9_markers_amended.2.1 2 highRatedPaper (by decide)).2 (by decide) (by decide)⟩,
   ⟨by decide, by decide, (c9_markers_amended.2.2.2 3.6).2.2.1 (by decide) (by decide)⟩⟩

/-- C9 counterexample: `highRatedPaper` carries an evaluation with
composite score 4.2, whose four-bucket label is `EXCELLENT`; but its
rendered bibliography title line reads `★ HIGHLY RATED:` and contains no
`EXCELLENT` label — refuting the claim that the title line carries the
four-bucket qualitative label (`EXCELLENT` for 4.0 ≤ score < 4.5). -/
theorem c9_counterexample :
    highRatedPaper.critic_rank = some 4.2
    ∧ scoreLabel 4.2 = "EXCELLENT"
    ∧ strContains (bibTitleText 1 highRatedPaper) "HIGHLY RATED" = true
    ∧ strContains (bibTitleText 1 highRatedPaper) "EXCELLENT" = false := by
  decide

theorem c5_witness :
    (¬("deeplearning" = "" ∨ "deeplearning" = "untitled"))
    ∧ (deduplicate_collection dupPapers).1.filter
          (fun p => dedupKey p.title = "deeplearning")
        = (dupPapers.filter (fun p => dedupKey p.title = "deeplearning")).take 1 :=
  ⟨by decide, c5_deduplicate_idempotent.2.2.2.2.2 dupPapers "deeplearning" (by decide)⟩

end QuestScholar
